import Mathlib

/-!
Shallow embedding of `make_fixtures.py` (django-fixture-creator).

The script inspects Django model classes and emits fixture records. We
model Python values by an inductive `PyVal`, Django field instances (and
the classes the default-resolution code recurses into) by `FieldLike`
and `DjField`, models by `Model`, and the Django app registry
(`settings.INSTALLED_APPS` together with `get_model`) by `Env`. The
`args`/`options` globals of the `__main__` block are passed explicitly.
Python's `for` loop over `self.app_models`, which grows while being
iterated, is modelled by the fuel-indexed `run_loop`; the `IndexError`
that `app_model[0]` raises on an empty lookup is modelled by `Option` /
`Except`.
-/

/-- Python values manipulated by the script. `pyNone` is Python `None`.
Floats and decimals are carried as their literal text, since the script
never computes with them. -/
inductive PyVal where
  | pyNone
  | pyInt (n : Int)
  | pyStr (s : String)
  | pyBool (b : Bool)
  | pyFloat (lit : String)
  | pyDecimal (lit : String)
  | pyList (elems : List PyVal)
deriving Repr

/-- Python `x is None` test. -/
def isNone : PyVal → Bool
  | PyVal.pyNone => true
  | _ => false

/-- The `default` attribute of a field: Django `NOT_PROVIDED`, a plain
value, or a callable (modelled by the value it returns when invoked). -/
inductive DjDefault where
  | notProvided
  | plainValue (v : PyVal)
  | callableReturning (v : PyVal)
deriving Repr

/-- The attributes of a field-like Python object that
`get_default_value` consults: its `default` attribute (`none` when the
attribute is missing, raising `AttributeError`), the result of
`get_internal_type()` (`none` when missing), and the object that
`x.__class__.__bases__[0]` yields (`none` when `__bases__` is empty).
For a field instance that recursion target is the first base class of
its class; the chain records the objects the code actually reaches. -/
inductive FieldLike where
  | leaf (defaultAttr : Option DjDefault) (internalType : Option String)
  | child (defaultAttr : Option DjDefault) (internalType : Option String)
      (firstBase : FieldLike)
deriving Repr

/-- The `default` attribute of a field-like object. -/
def FieldLike.defaultAttr : FieldLike → Option DjDefault
  | FieldLike.leaf d _ => d
  | FieldLike.child d _ _ => d

/-- Assemble a field-like object from its `default` attribute, its
internal type and its optional recursion target. -/
def mkFieldLike (d : Option DjDefault) (it : Option String)
    (fb : Option FieldLike) : FieldLike :=
  match fb with
  | none => FieldLike.leaf d it
  | some b => FieldLike.child d it b

/-- Stands for `datetime.date.today().strftime("%Y-%m-%d")` evaluated at
module import time. -/
def dateTodayStr : String := "2026-10-12"

/-- Stands for `datetime.datetime.now().strftime("%Y-%m-%d %H:%M:%S")`
evaluated at module import time. -/
def dateTimeNowStr : String := "2026-10-12 00:00:00"

/-- Value of `datetime.time().strftime("%H:%M:%S")`: midnight. -/
def timeMidnightStr : String := "00:00:00"

/-- The module-level `FIELD_TYPE_DEFAULTS` table of the script. -/
def FIELD_TYPE_DEFAULTS : List (String × PyVal) := [
  ("AutoField", PyVal.pyInt 1),
  ("BooleanField", PyVal.pyBool true),
  ("CharField", PyVal.pyStr "Default CharField"),
  ("CommaSeparatedIntegerField", PyVal.pyStr "1,2,3,4,5"),
  ("DateField", PyVal.pyStr dateTodayStr),
  ("DateTimeField", PyVal.pyStr dateTimeNowStr),
  ("DecimalField", PyVal.pyDecimal "1.0"),
  ("EmailField", PyVal.pyStr "person@example.com"),
  ("FileField", PyVal.pyNone),
  ("FilePathField", PyVal.pyStr "/path/to/file"),
  ("FloatField", PyVal.pyFloat "1.0"),
  ("IntegerField", PyVal.pyInt 1),
  ("IPAddressField", PyVal.pyStr "127.0.0.1"),
  ("NullBooleanField", PyVal.pyNone),
  ("PositiveIntegerField", PyVal.pyInt 1000000),
  ("PositiveSmallIntegerField", PyVal.pyInt 1),
  ("SlugField", PyVal.pyStr "test-slug"),
  ("SmallIntegerField", PyVal.pyInt 16384),
  ("TextField", PyVal.pyStr "lorem ipsum"),
  ("TimeField", PyVal.pyStr timeMidnightStr),
  ("URLField", PyVal.pyStr "http://www.example.com"),
  ("XMLField", PyVal.pyStr "<xml><head></head><body></body></xml>")]

/-- Python dict subscript `FIELD_TYPE_DEFAULTS[t]`; `none` is `KeyError`. -/
def fieldTypeLookup (t : String) : Option PyVal :=
  (FIELD_TYPE_DEFAULTS.find? (fun e => e.1 == t)).map (fun e => e.2)

/-- `FixtureMaker.get_default_value`. A missing `default` attribute or a
missing `get_internal_type` raises `AttributeError` (return `None`); a
table miss raises `KeyError`, handled by recursing into
`field.__class__.__bases__[0]` when `__bases__` is non-empty. -/
def get_default_value : FieldLike → PyVal
  | FieldLike.leaf none _ => PyVal.pyNone
  | FieldLike.leaf (some (DjDefault.plainValue v)) _ => v
  | FieldLike.leaf (some (DjDefault.callableReturning v)) _ => v
  | FieldLike.leaf (some DjDefault.notProvided) none => PyVal.pyNone
  | FieldLike.leaf (some DjDefault.notProvided) (some t) =>
    match fieldTypeLookup t with
    | some v => v
    | none => PyVal.pyNone
  | FieldLike.child none _ _ => PyVal.pyNone
  | FieldLike.child (some (DjDefault.plainValue v)) _ _ => v
  | FieldLike.child (some (DjDefault.callableReturning v)) _ _ => v
  | FieldLike.child (some DjDefault.notProvided) none _ => PyVal.pyNone
  | FieldLike.child (some DjDefault.notProvided) (some t) b =>
    match fieldTypeLookup t with
    | some v => v
    | none => get_default_value b

/-- The model class a relational field points at (`field.rel.to`): its
identity and its `__name__`. -/
structure RelTarget where
  id : String
  name : String
deriving Repr, DecidableEq

/-- A Django field instance as the script reads it: `get_attname()`,
`primary_key`, `blank`, `null` (never read by the script, used only to
state spec-side requiredness), `rel.to` when `field.rel` has a `to`
attribute, whether the field has `m2m_reverse_name` (true exactly for
many-to-many fields), and the attributes `get_default_value` consults. -/
structure DjField where
  attname : String
  primary_key : Bool
  blank : Bool
  null : Bool
  relTo : Option RelTarget
  hasM2MReverseName : Bool
  core : FieldLike
deriving Repr

/-- A Django model class as the script reads it: its identity (Python
object identity of the class), `__name__`, `_meta.fields` and
`_meta.many_to_many`. -/
structure Model where
  id : String
  name : String
  fields : List DjField
  many_to_many : List DjField
deriving Repr

/-- The Django environment: `settings.INSTALLED_APPS` and the
`get_model(app_label, model_name)` registry lookup. -/
structure Env where
  installedApps : List String
  getModel : String → String → Option Model

/-- Python `app_label.split(".")[-1]`: the suffix after the last dot
(the whole string when it has no dot). -/
def lastDotComponent (s : String) : String :=
  String.mk ((s.data.reverse.takeWhile (fun c => c != '.')).reverse)

/-- Python `s[:-3]`: the string without its last three characters
(empty when it has at most three). -/
def strDropLast3 (s : String) : String :=
  String.mk (s.data.take (s.data.length - 3))

/-- `FixtureMaker.get_app_models`: for each installed app and each name,
collect `(app_label, model)` for every successful `get_model`. -/
def get_app_models (env : Env) (model_names : List String) :
    List (String × Model) :=
  (env.installedApps.map (fun app_label =>
    model_names.filterMap (fun model_name =>
      (env.getModel (lastDotComponent app_label) model_name).map
        (fun m => (lastDotComponent app_label, m))))).flatten

/-- Python dict assignment `d[k] = v`: overwrite in place when the key
exists, otherwise append (insertion order preserved). -/
def dictInsert (d : List (String × PyVal)) (k : String) (v : PyVal) :
    List (String × PyVal) :=
  if d.any (fun e => e.1 == k) then
    d.map (fun e => if e.1 == k then (e.1, v) else e)
  else d ++ [(k, v)]

/-- Python `k in d` on the fields dict. -/
def hasKey (d : List (String × PyVal)) (k : String) : Bool :=
  d.any (fun e => e.1 == k)

/-- One iteration of the field loop of `FixtureMaker.build_fixture`,
acting on the scheduled list `self.app_models` and the `fields` dict.
`none` models the `IndexError` of `app_model[0]` when the name lookup
for a related model returns no result. -/
def processField (env : Env) (use_all : Bool) (ams : List (String × Model))
    (fl : List (String × PyVal)) (field : DjField) :
    Option (List (String × Model) × List (String × PyVal)) :=
  if field.primary_key then some (ams, fl)
  else
    match field.relTo with
    | some tgt =>
      if ams.any (fun e => e.2.id == tgt.id) then some (ams, fl)
      else if use_all || !field.blank then
        match (get_app_models env [tgt.name]).head? with
        | none => none
        | some am =>
          if field.hasM2MReverseName then
            some (ams ++ [am], dictInsert fl field.attname (PyVal.pyList [PyVal.pyInt 1]))
          else
            some (ams ++ [am],
              dictInsert fl (strDropLast3 field.attname) (PyVal.pyInt 1))
      else some (ams, fl)
    | none =>
      if use_all || !field.blank then
        let default := get_default_value field.core
        if isNone default then some (ams, fl)
        else some (ams, dictInsert fl field.attname default)
      else some (ams, fl)

/-- `FixtureMaker.get_default_pk`: the default value of the first field
marked `primary_key`, `None` when there is none. -/
def get_default_pk (model : Model) : PyVal :=
  match model.fields.find? (fun f => f.primary_key) with
  | some f => get_default_value f.core
  | none => PyVal.pyNone

/-- A fixture record: the dict literal of `build_fixture` has exactly
the keys `pk`, `model` and `fields`. -/
structure Record where
  pk : PyVal
  model : String
  fields : List (String × PyVal)
deriving Repr

/-- `FixtureMaker.build_fixture` for one `(app_label, model)` entry:
fold the field loop over `_meta.fields + _meta.many_to_many`, then
append the one record. `none` propagates the `IndexError`. -/
def build_fixture (env : Env) (use_all : Bool) (ams : List (String × Model))
    (fxs : List Record) (am : String × Model) :
    Option (List (String × Model) × List Record) :=
  match (am.2.fields ++ am.2.many_to_many).foldlM
      (fun st f => processField env use_all st.1 st.2 f)
      (ams, ([] : List (String × PyVal))) with
  | none => none
  | some (ams2, fl) =>
    some (ams2, fxs ++ [⟨get_default_pk am.2, am.1 ++ "." ++ am.2.name, fl⟩])

/-- Errors a run can raise: `IndexError` from `app_model[0]`, or fuel
exhaustion of our model of Python's unbounded `for` loop. -/
inductive RunErr where
  | outOfFuel
  | indexError
deriving Repr, DecidableEq

/-- The `for app_model in self.app_models` loop of
`FixtureMaker.build_fixtures`: Python's list iterator keeps an index and
sees entries appended during iteration, so the loop runs while the index
is below the current length. -/
def run_loop (env : Env) (use_all : Bool) : Nat → Nat →
    List (String × Model) → List Record →
    Except RunErr (List (String × Model) × List Record)
  | 0, _, _, _ => Except.error RunErr.outOfFuel
  | fuel + 1, i, ams, fxs =>
    if h : i < ams.length then
      match build_fixture env use_all ams fxs ams[i] with
      | none => Except.error RunErr.indexError
      | some (ams2, fxs2) => run_loop env use_all fuel (i + 1) ams2 fxs2
    else Except.ok (ams, fxs)

/-- `FixtureMaker.build_fixtures`: seeds `self.app_models` from the
module-level `args` (the `model_names` parameter is ignored by the
source), then iterates. Returns the final `self.app_models` and
`self._fixtures`. -/
def build_fixtures (env : Env) (use_all : Bool) (args : List String)
    (model_names : List String) (fuel : Nat) :
    Except RunErr (List (String × Model) × List Record) :=
  run_loop env use_all fuel 0 (get_app_models env args) []

/-- The fully-qualified identifier emitted for a scheduled entry. -/
def entryName (e : String × Model) : String := e.1 ++ "." ++ e.2.name

/-- The identities of the scheduled models. -/
def amsIds (ams : List (String × Model)) : List String :=
  ams.map (fun e => e.2.id)

/-- True when the field declares its own `default` (plain or callable):
the spec's "usable default". -/
def hasDeclaredDefault (f : DjField) : Bool :=
  match f.core.defaultAttr with
  | some (DjDefault.plainValue _) => true
  | some (DjDefault.callableReturning _) => true
  | _ => false

/-- The spec's notion of a required attribute: non-nullable, non-blank
and without a usable default. Stated from the spec's words, to compare
with what the code actually tests. -/
def requiredPerSpec (f : DjField) : Bool :=
  !f.null && !f.blank && !hasDeclaredDefault f

/-- Every model the registry can return belongs to `S`: `S` is the
(finite) universe of model classes of the running program. -/
def envClosed (env : Env) (S : List Model) : Prop :=
  ∀ a n m, env.getModel a n = some m → m ∈ S

/-- Looking up the name of `field.rel.to` finds, as its first result, a
model with the same identity as the referenced model. -/
def resolvesTo (env : Env) (t : RelTarget) : Prop :=
  ∃ am : String × Model,
    (get_app_models env [t.name]).head? = some am ∧ am.2.id = t.id

/-- Every relational field of every model of `S` resolves by name to the
model it references (model names are unambiguous across apps). -/
def envExact (env : Env) (S : List Model) : Prop :=
  ∀ m ∈ S, ∀ f ∈ m.fields ++ m.many_to_many,
    ∀ t, f.relTo = some t → resolvesTo env t

/-- The run exhausts every fuel bound: the Python loop never ends. -/
def divergesFrom (env : Env) (use_all : Bool) (args : List String) : Prop :=
  ∀ fuel, build_fixtures env use_all args [] fuel =
    Except.error RunErr.outOfFuel

/-! Concrete environments used as counterexamples and witnesses. -/

/-- Field-class attributes of a plain `ForeignKey` instance (its
default-resolution data is never consulted on the relational branch). -/
def fkCore : FieldLike :=
  FieldLike.leaf (some DjDefault.notProvided) (some "ForeignKey")

/-- A nullable, non-blank `CharField` with no declared default. -/
def c1F : DjField :=
  ⟨"nick", false, false, true, none, false,
    FieldLike.leaf (some DjDefault.notProvided) (some "CharField")⟩

/-- A model with the single non-required (nullable) attribute `c1F`. -/
def c1M : Model := ⟨"M1", "M1", [c1F], []⟩

/-- Registry with the single model `c1M` in app `app`. -/
def cex1Env : Env :=
  ⟨["app"], fun a n => if a == "app" && n == "M1" then some c1M else none⟩

/-- A non-blank `NullBooleanField`: its table default is `None`. -/
def c6F : DjField :=
  ⟨"flag", false, false, false, none, false,
    FieldLike.leaf (some DjDefault.notProvided) (some "NullBooleanField")⟩

/-- A model whose only non-pk attribute resolves to a `None` default. -/
def c6M : Model := ⟨"M6", "M6", [c6F], []⟩

/-- Registry with the single model `c6M`. -/
def cex6Env : Env :=
  ⟨["app"], fun a n => if a == "app" && n == "M6" then some c6M else none⟩

/-- The model class `app2.Tag` as a relation target. -/
def tgtT2 : RelTarget := ⟨"T2", "Tag"⟩

/-- A required foreign key `x` to `app2.Tag`. -/
def fkX : DjField := ⟨"x_id", false, false, false, some tgtT2, false, fkCore⟩

/-- A second required foreign key `y` to `app2.Tag`. -/
def fkY : DjField := ⟨"y_id", false, false, false, some tgtT2, false, fkCore⟩

/-- A model with two foreign keys to the same related model `app2.Tag`. -/
def mA4 : Model := ⟨"A4", "A", [fkX, fkY], []⟩

/-- The model `app1.Tag`, distinct from `app2.Tag` but sharing its
class name. -/
def mT1 : Model := ⟨"T1", "Tag", [], []⟩

/-- The model `app2.Tag`, the one the foreign keys reference. -/
def mT2 : Model := ⟨"T2", "Tag", [], []⟩

/-- Two apps whose models shadow each other's name `Tag`. -/
def cex4Env : Env :=
  ⟨["app1", "app2"], fun a n =>
    if a == "app1" && n == "A" then some mA4
    else if a == "app1" && n == "Tag" then some mT1
    else if a == "app2" && n == "Tag" then some mT2
    else none⟩

/-- A required foreign key to a model whose name no registry entry
matches. -/
def fkGhost : DjField :=
  ⟨"g_id", false, false, false, some ⟨"G", "Ghost"⟩, false, fkCore⟩

/-- A model whose foreign-key target name is unresolvable. -/
def mA5 : Model := ⟨"A5", "A", [fkGhost], []⟩

/-- Registry where the related-model lookup comes back empty. -/
def cex5Env : Env :=
  ⟨["app1"], fun a n => if a == "app1" && n == "A" then some mA5 else none⟩

/-- A required foreign key `t` to `app2.Tag`. -/
def fkT : DjField := ⟨"t_id", false, false, false, some tgtT2, false, fkCore⟩

/-- A root model referencing `app2.Tag`. -/
def mA7 : Model := ⟨"A7", "A", [fkT], []⟩

/-- The model `app1.Tag`, itself referencing `app2.Tag`: the name
lookup for `Tag` keeps returning this model instead of `app2.Tag`. -/
def mT1c : Model := ⟨"T1", "Tag", [fkT], []⟩

/-- Environment on which the traversal loops forever: the dedup guard
tests for `app2.Tag` while the scheduler keeps appending `app1.Tag`. -/
def cex7Env : Env :=
  ⟨["app1", "app2"], fun a n =>
    if a == "app1" && n == "A" then some mA7
    else if a == "app1" && n == "Tag" then some mT1c
    else if a == "app2" && n == "Tag" then some mT2
    else none⟩

/-- A pk-less model with no fields, for witness instantiations. -/
def c2M : Model := ⟨"M2", "M2", [], []⟩

/-- The exact test the field loop applies to a non-relational field:
not the primary key, included by `use_all or not blank`, and resolved
default not `None`. -/
def emitsDefault (u : Bool) (f : DjField) : Bool :=
  !f.primary_key && ((u || !f.blank) && !isNone (get_default_value f.core))

/-- A field-less model `B`, target of `fkB`. -/
def mB : Model := ⟨"B", "B", [], []⟩

/-- A required foreign key to `mB`. -/
def fkB : DjField := ⟨"b_id", false, false, false, some ⟨"B", "B"⟩, false, fkCore⟩

/-- A model with one required foreign key to `mB`. -/
def mAw : Model := ⟨"AW", "AW", [fkB], []⟩

/-- Registry of the well-behaved witness environment. -/
def wGetModel : String → String → Option Model := fun a n =>
  if a == "app" && n == "AW" then some mAw
  else if a == "app" && n == "B" then some mB
  else none

/-- A well-behaved environment: unique model names, exact resolution. -/
def wEnv : Env := ⟨["app"], wGetModel⟩

/-- The model universe of `wEnv`. -/
def wS : List Model := [mAw, mB]

/-- The record `wEnv` emits for `mAw` from input `["AW"]`. -/
def wRecA : Record := ⟨PyVal.pyNone, "app.AW", [("b", PyVal.pyInt 1)]⟩

/-- The record `wEnv` emits for the discovered model `mB`. -/
def wRecB : Record := ⟨PyVal.pyNone, "app.B", []⟩

/-! Basic unfolding lemmas. -/

lemma run_loop_zero (env : Env) (u : Bool) (i : Nat)
    (ams : List (String × Model)) (fxs : List Record) :
    run_loop env u 0 i ams fxs = Except.error RunErr.outOfFuel := rfl

lemma run_loop_succ (env : Env) (u : Bool) (fuel i : Nat)
    (ams : List (String × Model)) (fxs : List Record) :
    run_loop env u (fuel + 1) i ams fxs =
      if h : i < ams.length then
        match build_fixture env u ams fxs ams[i] with
        | none => Except.error RunErr.indexError
        | some (ams2, fxs2) => run_loop env u fuel (i + 1) ams2 fxs2
      else Except.ok (ams, fxs) := rfl

lemma get_default_value_leaf_notProvided (t : String) :
    get_default_value (FieldLike.leaf (some DjDefault.notProvided) (some t)) =
      match fieldTypeLookup t with
      | some v => v
      | none => PyVal.pyNone := by
  simp [get_default_value]

lemma get_default_value_child_notProvided (t : String) (b : FieldLike) :
    get_default_value (FieldLike.child (some DjDefault.notProvided) (some t) b) =
      match fieldTypeLookup t with
      | some v => v
      | none => get_default_value b := by
  simp [get_default_value]

lemma hasKey_dictInsert (d : List (String × PyVal)) (k : String) (v : PyVal)
    (k2 : String) :
    hasKey (dictInsert d k v) k2 = (hasKey d k2 || (k == k2)) := by
  unfold hasKey dictInsert
  by_cases hk : d.any (fun e => e.1 == k)
  · rw [if_pos hk]
    have hmap : (d.map (fun e => if e.1 == k then (e.1, v) else e)).any
        (fun e => e.1 == k2) = d.any (fun e => e.1 == k2) := by
      rw [List.any_map]
      have hfun : ((fun e : String × PyVal => e.1 == k2) ∘
          (fun e : String × PyVal => if e.1 == k then (e.1, v) else e)) =
          (fun e : String × PyVal => e.1 == k2) := by
        funext e
        simp only [Function.comp_apply]
        by_cases h : e.1 == k
        · rw [if_pos h]
        · rw [if_neg h]
      rw [hfun]
    rw [hmap]
    by_cases hkk : k == k2
    · have : k = k2 := by simpa using hkk
      subst this
      simp [hk]
    · simp [hkk]
  · rw [if_neg hk]
    simp [List.any_append]

/-- C1 (counterexample): with `use_all` false, the visited model `c1M`
has the single attribute `c1F`, which is nullable and hence not
required per the spec, yet the emitted record's fields mapping contains
it (with the `CharField` table default): the code tests only `blank`,
never `null` or the declared default. -/
theorem C1_cex :
    build_fixtures cex1Env false ["M1"] [] 3 =
      Except.ok ([("app", c1M)],
        [⟨PyVal.pyNone, "app.M1", [("nick", PyVal.pyStr "Default CharField")]⟩]) ∧
    requiredPerSpec c1F = false ∧
    hasKey [("nick", PyVal.pyStr "Default CharField")] "nick" = true :=
  ⟨rfl, rfl, rfl⟩

/-- C6 (counterexample): with `use_all` true, the visited model `c6M`
has the non-primary-key attribute `c6F` (a `NullBooleanField`), yet the
emitted record's fields mapping is empty: attributes whose resolved
default is `None` are omitted even under `use_all`. -/
theorem C6_cex :
    build_fixtures cex6Env true ["M6"] [] 3 =
      Except.ok ([("app", c6M)], [⟨PyVal.pyNone, "app.M6", []⟩]) ∧
    c6F.primary_key = false ∧
    hasKey [] c6F.attname = false :=
  ⟨rfl, rfl, rfl⟩

/-- C4 (counterexample): from the input `["A"]`, where `app1.A` has two
foreign keys to `app2.Tag` and `app1.Tag` shadows that name, the run
emits two records for the model `app1.Tag`: the dedup guard tests the
referenced class `app2.Tag` while the scheduler appends the name-lookup
result `app1.Tag`, so the same model is visited twice. -/
theorem C4_cex :
    build_fixtures cex4Env false ["A"] [] 10 =
      Except.ok ([("app1", mA4), ("app1", mT1), ("app1", mT1)],
        [⟨PyVal.pyNone, "app1.A", [("x", PyVal.pyInt 1), ("y", PyVal.pyInt 1)]⟩,
         ⟨PyVal.pyNone, "app1.Tag", []⟩,
         ⟨PyVal.pyNone, "app1.Tag", []⟩]) ∧
    ([⟨PyVal.pyNone, "app1.A", [("x", PyVal.pyInt 1), ("y", PyVal.pyInt 1)]⟩,
      ⟨PyVal.pyNone, "app1.Tag", []⟩,
      (⟨PyVal.pyNone, "app1.Tag", []⟩ : Record)].countP
        (fun r => r.model == "app1.Tag")) = 2 :=
  ⟨rfl, rfl⟩

/-- C5 (counterexample): `app1.A` has a required foreign-key attribute
whose target is not scheduled, yet no record is ever emitted for the
target (nor for `A` itself): the name lookup for the target returns no
result and `app_model[0]` raises `IndexError`, aborting the run. -/
theorem C5_cex :
    build_fixtures cex5Env false ["A"] [] 10 =
      Except.error RunErr.indexError ∧
    fkGhost.relTo.isSome = true ∧ fkGhost.blank = false :=
  ⟨rfl, rfl, rfl⟩

/-- C2: whenever `build_fixture` succeeds on an entry `(lbl, m)` it
appends exactly one record, a dict with exactly the keys `pk`, `model`
and `fields` (the fields of `Record`), whose `model` is
`"<app_label>.<ModelName>"` and whose `pk` is `get_default_pk m` — the
default value of the first primary-key field, `None` when no field is
marked primary key. -/
theorem C2_thm (env : Env) (u : Bool) (ams ams2 : List (String × Model))
    (fxs fxs2 : List Record) (lbl : String) (m : Model)
    (h : build_fixture env u ams fxs (lbl, m) = some (ams2, fxs2)) :
    (∃ d, fxs2 = fxs ++ [⟨get_default_pk m, lbl ++ "." ++ m.name, d⟩]) ∧
    (m.fields.find? (fun f => f.primary_key) = none →
      get_default_pk m = PyVal.pyNone) := by
  constructor
  · unfold build_fixture at h
    split at h
    · exact absurd h (by simp)
    · next ams3 fl hfold =>
      refine ⟨fl, ?_⟩
      injection h with h2
      injection h2 with h3 h4
      exact h4.symm
  · intro hnone
    unfold get_default_pk
    rw [hnone]

/-- C2 (witness): the record built for the field-less, pk-less model
`c2M`. -/
theorem C2_w :
    (∃ d, ([⟨PyVal.pyNone, "ap.M2", []⟩] : List Record) =
      [] ++ [⟨get_default_pk c2M, "ap" ++ "." ++ c2M.name, d⟩]) ∧
    (c2M.fields.find? (fun f => f.primary_key) = none →
      get_default_pk c2M = PyVal.pyNone) :=
  C2_thm cex1Env false [] [] [] [⟨PyVal.pyNone, "ap.M2", []⟩] "ap" c2M rfl

/-- C3: `get_default_value` resolves in this order: the field's own
declared default when provided (a callable is invoked); otherwise the
`FIELD_TYPE_DEFAULTS` entry keyed by the internal type name; on a table
miss the value obtained by recursing into the object the code reaches
as `field.__class__.__bases__[0]`; and `None` when no step yields a
value (missing attributes, or a table miss with no bases). -/
theorem C3_thm (it : Option String) (fb : Option FieldLike) :
    (∀ v, get_default_value
        (mkFieldLike (some (DjDefault.plainValue v)) it fb) = v) ∧
    (∀ v, get_default_value
        (mkFieldLike (some (DjDefault.callableReturning v)) it fb) = v) ∧
    (∀ t v, it = some t → fieldTypeLookup t = some v →
      get_default_value (mkFieldLike (some DjDefault.notProvided) it fb) = v) ∧
    (∀ t b, it = some t → fieldTypeLookup t = none → fb = some b →
      get_default_value (mkFieldLike (some DjDefault.notProvided) it fb) =
        get_default_value b) ∧
    (∀ t, it = some t → fieldTypeLookup t = none → fb = none →
      get_default_value (mkFieldLike (some DjDefault.notProvided) it fb) =
        PyVal.pyNone) ∧
    (it = none →
      get_default_value (mkFieldLike (some DjDefault.notProvided) it fb) =
        PyVal.pyNone) ∧
    (get_default_value (mkFieldLike none it fb) = PyVal.pyNone) := by
  refine ⟨?_, ?_, ?_, ?_, ?_, ?_, ?_⟩
  · intro v; cases fb <;> simp [mkFieldLike, get_default_value]
  · intro v; cases fb <;> simp [mkFieldLike, get_default_value]
  · intro t v hit hl
    subst hit
    cases fb with
    | none => rw [mkFieldLike, get_default_value_leaf_notProvided, hl]
    | some b => rw [mkFieldLike, get_default_value_child_notProvided, hl]
  · intro t b hit hl hfb
    subst hit; subst hfb
    rw [mkFieldLike, get_default_value_child_notProvided, hl]
  · intro t hit hl hfb
    subst hit; subst hfb
    rw [mkFieldLike, get_default_value_leaf_notProvided, hl]
  · intro hit
    subst hit
    cases fb <;> simp [mkFieldLike, get_default_value]
  · cases fb <;> simp [mkFieldLike, get_default_value]

/-- C3 (witness): a `CharField`-typed field with no declared default
resolves through the table. -/
theorem C3_w :
    get_default_value (mkFieldLike (some DjDefault.notProvided)
      (some "CharField") none) = PyVal.pyStr "Default CharField" :=
  (C3_thm (some "CharField") none).2.2.1 "CharField"
    (PyVal.pyStr "Default CharField") rfl rfl

/-- C8: the output of `build_fixtures` does not depend on its
`model_names` parameter — the source seeds the traversal from the
module-level `args` instead — so two calls differing only in that
parameter return identical results. -/
theorem C8_thm (env : Env) (u : Bool) (args mn1 mn2 : List String)
    (fuel : Nat) :
    build_fixtures env u args mn1 fuel = build_fixtures env u args mn2 fuel :=
  rfl

/-- C9: an included (non-pk, dedup-passing, `use_all`-or-non-blank)
relational attribute is emitted with its attribute name less the last
three characters (stripping `_id`) mapped to the constant `1` when it
is a foreign key, and with its attribute name mapped to the constant
`[1]` when it is many-to-many — regardless of the related model's
actual primary key — while the first name-lookup result is scheduled. -/
theorem C9_thm (env : Env) (u : Bool) (ams : List (String × Model))
    (fl : List (String × PyVal)) (f : DjField) (t : RelTarget)
    (am : String × Model)
    (hpk : f.primary_key = false) (hrel : f.relTo = some t)
    (hnotin : ams.any (fun e => e.2.id == t.id) = false)
    (hq : (u || !f.blank) = true)
    (hhead : (get_app_models env [t.name]).head? = some am) :
    processField env u ams fl f =
      some (ams ++ [am],
        if f.hasM2MReverseName then
          dictInsert fl f.attname (PyVal.pyList [PyVal.pyInt 1])
        else dictInsert fl (strDropLast3 f.attname) (PyVal.pyInt 1)) := by
  unfold processField
  rw [hpk, hrel]
  simp only [Bool.false_eq_true, if_false]
  rw [hnotin]
  simp only [Bool.false_eq_true, if_false, hq, if_true]
  rw [hhead]
  by_cases hm : f.hasM2MReverseName <;> simp [hm]

/-- C9 (witness): the foreign key `fkX` (attname `x_id`) is emitted as
`x ↦ 1` and `app1.Tag` is scheduled. -/
theorem C9_w :
    processField cex4Env false [] [] fkX =
      some ([("app1", mT1)],
        if fkX.hasM2MReverseName then
          dictInsert [] fkX.attname (PyVal.pyList [PyVal.pyInt 1])
        else dictInsert [] (strDropLast3 fkX.attname) (PyVal.pyInt 1)) :=
  C9_thm cex4Env false [] [] fkX tgtT2 ("app1", mT1) rfl rfl rfl rfl rfl

/-- C10: a non-pk relational attribute whose target model is already in
the scheduled list is skipped entirely — nothing is emitted for it and
nothing is scheduled — whatever `use_all` and `blank` are. -/
theorem C10_thm (env : Env) (u : Bool) (ams : List (String × Model))
    (fl : List (String × PyVal)) (f : DjField) (t : RelTarget)
    (hpk : f.primary_key = false) (hrel : f.relTo = some t)
    (hin : ams.any (fun e => e.2.id == t.id) = true) :
    processField env u ams fl f = some (ams, fl) := by
  unfold processField
  rw [hpk, hrel]
  simp only [Bool.false_eq_true, if_false]
  rw [hin]
  simp

/-- C10 (witness): with `app2.Tag` already scheduled, the required
foreign key `fkX` contributes nothing. -/
theorem C10_w :
    processField cex4Env false [("app2", mT2)] [] fkX =
      some ([("app2", mT2)], []) :=
  C10_thm cex4Env false [("app2", mT2)] [] fkX tgtT2 rfl rfl rfl

lemma processField_nonrel (env : Env) (u : Bool) (ams : List (String × Model))
    (d : List (String × PyVal)) (f : DjField) (hf : f.relTo = none) :
    processField env u ams d f =
      some (ams, if emitsDefault u f then
        dictInsert d f.attname (get_default_value f.core) else d) := by
  unfold processField emitsDefault
  rw [hf]
  by_cases hpk : f.primary_key
  · simp [hpk]
  · by_cases hq : (u || !f.blank)
    · by_cases hn : isNone (get_default_value f.core)
      · simp [hpk, hq, hn]
      · simp [hpk, hq, hn]
    · simp [hpk, hq]

lemma foldFields_nonrel (env : Env) (u : Bool) :
    ∀ (fs : List DjField) (ams : List (String × Model))
      (d : List (String × PyVal)),
    (∀ f ∈ fs, f.relTo = none) →
    ∃ d2, fs.foldlM (fun st f => processField env u st.1 st.2 f) (ams, d) =
        some (ams, d2) ∧
      ∀ k, hasKey d2 k = (hasKey d k ||
        fs.any (fun f => emitsDefault u f && (f.attname == k))) := by
  intro fs
  induction fs with
  | nil =>
    intro ams d _
    exact ⟨d, rfl, fun k => by simp⟩
  | cons f fs ih =>
    intro ams d hnr
    have hf : f.relTo = none := hnr f (List.mem_cons_self f fs)
    have hrest : ∀ g ∈ fs, g.relTo = none :=
      fun g hg => hnr g (List.mem_cons_of_mem f hg)
    obtain ⟨d2, hfold, hkeys⟩ := ih ams
      (if emitsDefault u f then
        dictInsert d f.attname (get_default_value f.core) else d) hrest
    refine ⟨d2, ?_, ?_⟩
    · rw [List.foldlM_cons, processField_nonrel env u ams d f hf]
      exact hfold
    · intro k
      rw [hkeys k]
      by_cases he : emitsDefault u f
      · rw [if_pos he, hasKey_dictInsert]
        simp [he, Bool.or_assoc]
      · rw [if_neg he]
        have he2 : emitsDefault u f = false := by
          revert he
          cases emitsDefault u f <;> simp
        simp [he2]

/-- C1 (amended): with `use_all` false, for a visited model all of
whose attributes are non-relational with distinct attribute names, the
emitted record's fields mapping contains an attribute iff the attribute
is not the primary key, is non-blank, and its resolved default value is
not `None`; nullability and the presence of a declared default are
never consulted for inclusion (a declared default only supplies the
emitted value). -/
theorem C1_thm (env : Env) (ams : List (String × Model)) (fxs : List Record)
    (lbl : String) (m : Model)
    (hnr : ∀ f ∈ m.fields ++ m.many_to_many, f.relTo = none)
    (hnd : ((m.fields ++ m.many_to_many).map DjField.attname).Nodup) :
    ∃ d, build_fixture env false ams fxs (lbl, m) =
        some (ams, fxs ++ [⟨get_default_pk m, lbl ++ "." ++ m.name, d⟩]) ∧
      ∀ f ∈ m.fields ++ m.many_to_many,
        hasKey d f.attname =
          (!f.primary_key && (!f.blank && !isNone (get_default_value f.core))) := by
  obtain ⟨d2, hfold, hkeys⟩ :=
    foldFields_nonrel env false (m.fields ++ m.many_to_many) ams [] hnr
  refine ⟨d2, ?_, ?_⟩
  · unfold build_fixture
    dsimp only
    rw [hfold]
  · intro f hf
    rw [hkeys f.attname]
    simp only [hasKey, List.any_nil, Bool.false_or]
    by_cases he : (!f.primary_key && (!f.blank && !isNone (get_default_value f.core))) = true
    · rw [he]
      apply List.any_eq_true.mpr
      refine ⟨f, hf, ?_⟩
      have hed : emitsDefault false f = true := by
        unfold emitsDefault
        simpa using he
      simp [hed]
    · have he2 : (!f.primary_key && (!f.blank && !isNone (get_default_value f.core))) = false := by
        revert he
        cases (!f.primary_key && (!f.blank && !isNone (get_default_value f.core))) <;> simp
      rw [he2]
      rw [List.any_eq_false]
      intro g hg hcon
      have hparts := (Bool.and_eq_true _ _).mp hcon
      have hatt : g.attname = f.attname := by
        have := hparts.2
        simpa using this
      have hgf : g = f := List.inj_on_of_nodup_map hnd hg hf hatt
      subst hgf
      have hgd : (!g.primary_key && (!g.blank && !isNone (get_default_value g.core))) = true := by
        have := hparts.1
        unfold emitsDefault at this
        simpa using this
      simp [he2] at hgd

/-- C1 (witness): the model `c1M` (one non-relational, non-blank,
nullable `CharField`) instantiates the amended characterization. -/
theorem C1_w :
    ∃ d, build_fixture cex1Env false [] [] ("app", c1M) =
        some ([], [] ++ [⟨get_default_pk c1M, "app" ++ "." ++ c1M.name, d⟩]) ∧
      ∀ f ∈ c1M.fields ++ c1M.many_to_many,
        hasKey d f.attname =
          (!f.primary_key && (!f.blank && !isNone (get_default_value f.core))) :=
  C1_thm cex1Env [] [] "app" c1M (by decide) (by decide)

/-- C6 (amended): with `use_all` true, for a visited model all of whose
attributes are non-relational with distinct attribute names, the
emitted record's fields mapping contains exactly the attributes that
are not the primary key and whose resolved default value is not `None`;
attributes resolving to `None` are omitted even under `use_all`. -/
theorem C6_thm (env : Env) (ams : List (String × Model)) (fxs : List Record)
    (lbl : String) (m : Model)
    (hnr : ∀ f ∈ m.fields ++ m.many_to_many, f.relTo = none)
    (hnd : ((m.fields ++ m.many_to_many).map DjField.attname).Nodup) :
    ∃ d, build_fixture env true ams fxs (lbl, m) =
        some (ams, fxs ++ [⟨get_default_pk m, lbl ++ "." ++ m.name, d⟩]) ∧
      ∀ f ∈ m.fields ++ m.many_to_many,
        hasKey d f.attname =
          (!f.primary_key && !isNone (get_default_value f.core)) := by
  obtain ⟨d2, hfold, hkeys⟩ :=
    foldFields_nonrel env true (m.fields ++ m.many_to_many) ams [] hnr
  refine ⟨d2, ?_, ?_⟩
  · unfold build_fixture
    dsimp only
    rw [hfold]
  · intro f hf
    rw [hkeys f.attname]
    simp only [hasKey, List.any_nil, Bool.false_or]
    by_cases he : (!f.primary_key && !isNone (get_default_value f.core)) = true
    · rw [he]
      apply List.any_eq_true.mpr
      refine ⟨f, hf, ?_⟩
      have hed : emitsDefault true f = true := by
        unfold emitsDefault
        simpa using he
      simp [hed]
    · have he2 : (!f.primary_key && !isNone (get_default_value f.core)) = false := by
        revert he
        cases (!f.primary_key && !isNone (get_default_value f.core)) <;> simp
      rw [he2]
      rw [List.any_eq_false]
      intro g hg hcon
      have hparts := (Bool.and_eq_true _ _).mp hcon
      have hatt : g.attname = f.attname := by
        have := hparts.2
        simpa using this
      have hgf : g = f := List.inj_on_of_nodup_map hnd hg hf hatt
      subst hgf
      have hgd : (!g.primary_key && !isNone (get_default_value g.core)) = true := by
        have := hparts.1
        unfold emitsDefault at this
        simpa using this
      simp [he2] at hgd

/-- C6 (witness): the model `c6M` (one `NullBooleanField`)
instantiates the amended `use_all` characterization. -/
theorem C6_w :
    ∃ d, build_fixture cex6Env true [] [] ("app", c6M) =
        some ([], [] ++ [⟨get_default_pk c6M, "app" ++ "." ++ c6M.name, d⟩]) ∧
      ∀ f ∈ c6M.fields ++ c6M.many_to_many,
        hasKey d f.attname =
          (!f.primary_key && !isNone (get_default_value f.core)) :=
  C6_thm cex6Env [] [] "app" c6M (by decide) (by decide)

/-! Per-field behavior on the relational branch, and list facts. -/

lemma amsIds_append (l1 l2 : List (String × Model)) :
    amsIds (l1 ++ l2) = amsIds l1 ++ amsIds l2 := by
  simp [amsIds]

lemma mem_amsIds (ams : List (String × Model)) (x : String) :
    x ∈ amsIds ams ↔ ∃ e ∈ ams, e.2.id = x := by
  simp [amsIds, List.mem_map]

lemma any_id_false_iff (ams : List (String × Model)) (x : String) :
    (ams.any (fun e => e.2.id == x) = false) ↔ x ∉ amsIds ams := by
  rw [List.any_eq_false, mem_amsIds]
  constructor
  · intro h hex
    obtain ⟨e, he, hid⟩ := hex
    exact h e he (by simp [hid])
  · intro h e he hcon
    exact h ⟨e, he, by simpa using hcon⟩

lemma processField_rel_skip (env : Env) (u : Bool)
    (ams : List (String × Model)) (d : List (String × PyVal)) (f : DjField)
    (t : RelTarget) (hpk : f.primary_key = false) (hrel : f.relTo = some t)
    (hin : ams.any (fun e => e.2.id == t.id) = true) :
    processField env u ams d f = some (ams, d) := by
  unfold processField
  rw [hpk, hrel]
  simp only [Bool.false_eq_true, if_false]
  rw [hin]
  simp

lemma processField_rel_add (env : Env) (u : Bool)
    (ams : List (String × Model)) (d : List (String × PyVal)) (f : DjField)
    (t : RelTarget) (am : String × Model)
    (hpk : f.primary_key = false) (hrel : f.relTo = some t)
    (hnotin : ams.any (fun e => e.2.id == t.id) = false)
    (hq : (u || !f.blank) = true)
    (hhead : (get_app_models env [t.name]).head? = some am) :
    processField env u ams d f =
      some (ams ++ [am],
        if f.hasM2MReverseName then
          dictInsert d f.attname (PyVal.pyList [PyVal.pyInt 1])
        else dictInsert d (strDropLast3 f.attname) (PyVal.pyInt 1)) := by
  unfold processField
  rw [hpk, hrel]
  simp only [Bool.false_eq_true, if_false]
  rw [hnotin]
  simp only [Bool.false_eq_true, if_false, hq, if_true]
  rw [hhead]
  by_cases hm : f.hasM2MReverseName <;> simp [hm]

lemma processField_rel_noq (env : Env) (u : Bool)
    (ams : List (String × Model)) (d : List (String × PyVal)) (f : DjField)
    (t : RelTarget) (hpk : f.primary_key = false) (hrel : f.relTo = some t)
    (hnotin : ams.any (fun e => e.2.id == t.id) = false)
    (hq : (u || !f.blank) = false) :
    processField env u ams d f = some (ams, d) := by
  unfold processField
  rw [hpk, hrel]
  simp only [Bool.false_eq_true, if_false]
  rw [hnotin]
  simp only [Bool.false_eq_true, if_false, hq]

lemma processField_pk (env : Env) (u : Bool)
    (ams : List (String × Model)) (d : List (String × PyVal)) (f : DjField)
    (hpk : f.primary_key = true) :
    processField env u ams d f = some (ams, d) := by
  unfold processField
  rw [hpk]
  simp

lemma mem_get_app_models (env : Env) (ns : List String) (e : String × Model)
    (he : e ∈ get_app_models env ns) : ∃ a n, env.getModel a n = some e.2 := by
  unfold get_app_models at he
  rw [List.mem_flatten] at he
  obtain ⟨l, hl, hel⟩ := he
  rw [List.mem_map] at hl
  obtain ⟨app_label, _, rfl⟩ := hl
  rw [List.mem_filterMap] at hel
  obtain ⟨n, _, hn⟩ := hel
  cases hm : env.getModel (lastDotComponent app_label) n with
  | none => rw [hm] at hn; exact absurd hn (by simp)
  | some m =>
    rw [hm] at hn
    have hme : (lastDotComponent app_label, m) = e := by simpa using hn
    subst hme
    exact ⟨lastDotComponent app_label, n, hm⟩

lemma head_get_app_models_mem (env : Env) (ns : List String)
    (am : String × Model) (h : (get_app_models env ns).head? = some am) :
    am ∈ get_app_models env ns := by
  cases hg : get_app_models env ns with
  | nil => rw [hg] at h; exact absurd h (by simp)
  | cons x xs =>
    rw [hg] at h
    have hx : x = am := by simpa using h
    subst hx
    exact List.mem_cons_self x xs

lemma processField_total (env : Env) (u : Bool) (S : List Model)
    (hC : envClosed env S)
    (ams : List (String × Model)) (d : List (String × PyVal)) (f : DjField)
    (hres : ∀ t, f.relTo = some t → resolvesTo env t) :
    ∃ Δ d2, processField env u ams d f = some (ams ++ Δ, d2) ∧
      (Δ = [] ∨ ∃ a, Δ = [a]) ∧
      (∀ e ∈ Δ, e.2 ∈ S) ∧
      (∀ e ∈ Δ, e.2.id ∉ amsIds ams) ∧
      (∀ t, f.relTo = some t → f.primary_key = false →
        (u || !f.blank) = true → t.id ∈ amsIds (ams ++ Δ)) := by
  by_cases hpk : f.primary_key
  · refine ⟨[], d, ?_, Or.inl rfl, by simp, by simp, ?_⟩
    · rw [processField_pk env u ams d f hpk]
      simp
    · intro t _ hpk2 _
      rw [hpk] at hpk2
      exact absurd hpk2 (by simp)
  · have hpk2 : f.primary_key = false := by
      revert hpk; cases f.primary_key <;> simp
    cases hrel : f.relTo with
    | none =>
      refine ⟨[], if emitsDefault u f then
          dictInsert d f.attname (get_default_value f.core) else d,
        ?_, Or.inl rfl, by simp, by simp, ?_⟩
      · rw [processField_nonrel env u ams d f hrel]
        simp
      · intro t ht
        exact absurd ht (by simp)
    | some t =>
      by_cases hin : ams.any (fun e => e.2.id == t.id)
      · refine ⟨[], d, ?_, Or.inl rfl, by simp, by simp, ?_⟩
        · rw [processField_rel_skip env u ams d f t hpk2 hrel hin]
          simp
        · intro t2 ht2 _ _
          have ht2e : t2 = t := by simpa using ht2.symm
          subst ht2e
          rw [List.append_nil, mem_amsIds]
          rw [List.any_eq_true] at hin
          obtain ⟨e, he, heq⟩ := hin
          exact ⟨e, he, by simpa using heq⟩
      · have hin2 : ams.any (fun e => e.2.id == t.id) = false := by
          revert hin; cases ams.any (fun e => e.2.id == t.id) <;> simp
        by_cases hq : (u || !f.blank)
        · have hr : ∃ am2 : String × Model,
              (get_app_models env [t.name]).head? = some am2 ∧ am2.2.id = t.id :=
            hres t hrel
          obtain ⟨am, hhead, hid⟩ := hr
          refine ⟨[am], _, processField_rel_add env u ams d f t am hpk2 hrel hin2 hq hhead,
            Or.inr ⟨am, rfl⟩, ?_, ?_, ?_⟩
          · intro e he
            have he2 : e = am := by simpa using he
            rw [he2]
            obtain ⟨a, n, hg⟩ := mem_get_app_models env [t.name] am
              (head_get_app_models_mem env [t.name] am hhead)
            exact hC a n am.2 hg
          · intro e he
            have he2 : e = am := by simpa using he
            rw [he2, hid]
            exact (any_id_false_iff ams t.id).mp hin2
          · intro t2 ht2 _ _
            have ht2e : t2 = t := by simpa using ht2.symm
            subst ht2e
            rw [mem_amsIds]
            exact ⟨am, by simp, hid⟩
        · have hq2 : (u || !f.blank) = false := by
            revert hq; cases (u || !f.blank) <;> simp
          refine ⟨[], d, ?_, Or.inl rfl, by simp, by simp, ?_⟩
          · rw [processField_rel_noq env u ams d f t hpk2 hrel hin2 hq2]
            simp
          · intro t2 _ _ hqq
            rw [hq2] at hqq
            exact absurd hqq (by simp)

lemma foldFields_total (env : Env) (u : Bool) (S : List Model)
    (hC : envClosed env S) :
    ∀ (fs : List DjField) (ams : List (String × Model))
      (d : List (String × PyVal)),
    (∀ f ∈ fs, ∀ t, f.relTo = some t → resolvesTo env t) →
    ∃ Δ d2, fs.foldlM (fun st f => processField env u st.1 st.2 f) (ams, d) =
        some (ams ++ Δ, d2) ∧
      (∀ e ∈ Δ, e.2 ∈ S) ∧
      ((amsIds ams).Nodup → (amsIds (ams ++ Δ)).Nodup) ∧
      (∀ f ∈ fs, f.primary_key = false → (u || !f.blank) = true →
        ∀ t, f.relTo = some t → t.id ∈ amsIds (ams ++ Δ)) := by
  intro fs
  induction fs with
  | nil =>
    intro ams d _
    refine ⟨[], d, by simp, by simp, ?_, by simp⟩
    simp
  | cons f fs ih =>
    intro ams d hres
    have hf : ∀ t, f.relTo = some t → resolvesTo env t :=
      hres f (List.mem_cons_self f fs)
    have hrest : ∀ g ∈ fs, ∀ t, g.relTo = some t → resolvesTo env t :=
      fun g hg => hres g (List.mem_cons_of_mem f hg)
    obtain ⟨Δ1, d1, hstep, hsmall1, hS1, hnew1, htgt1⟩ :=
      processField_total env u S hC ams d f hf
    obtain ⟨Δ2, d2, hfold, hS2, hnd2, htgt2⟩ := ih (ams ++ Δ1) d1 hrest
    refine ⟨Δ1 ++ Δ2, d2, ?_, ?_, ?_, ?_⟩
    · rw [List.foldlM_cons]
      have hstep2 : processField env u (ams, d).1 (ams, d).2 f =
          some (ams ++ Δ1, d1) := hstep
      rw [hstep2]
      rw [← List.append_assoc]
      exact hfold
    · intro e he
      rcases List.mem_append.mp he with h | h
      · exact hS1 e h
      · exact hS2 e h
    · intro hnd
      rw [← List.append_assoc]
      apply hnd2
      rw [amsIds_append]
      apply List.Nodup.append hnd
      · rcases hsmall1 with h | ⟨a, h⟩ <;> subst h <;> simp [amsIds]
      · intro x hx hx2
        rw [mem_amsIds] at hx2
        obtain ⟨e, he, hid⟩ := hx2
        exact hnew1 e he (hid ▸ hx)
    · intro g hg hgpk hgq t hgt
      rcases List.mem_cons.mp hg with h | h
      · subst h
        have := htgt1 t hgt hgpk hgq
        rw [← List.append_assoc, amsIds_append]
        exact List.mem_append_left _ this
      · rw [← List.append_assoc]
        exact htgt2 g h hgpk hgq t hgt

lemma build_fixture_total (env : Env) (u : Bool) (S : List Model)
    (hC : envClosed env S)
    (ams : List (String × Model)) (fxs : List Record) (am : String × Model)
    (hres : ∀ f ∈ am.2.fields ++ am.2.many_to_many, ∀ t, f.relTo = some t →
      resolvesTo env t) :
    ∃ Δ d, build_fixture env u ams fxs am = some (ams ++ Δ,
        fxs ++ [⟨get_default_pk am.2, entryName am, d⟩]) ∧
      (∀ e ∈ Δ, e.2 ∈ S) ∧
      ((amsIds ams).Nodup → (amsIds (ams ++ Δ)).Nodup) ∧
      (∀ f ∈ am.2.fields ++ am.2.many_to_many, f.primary_key = false →
        (u || !f.blank) = true → ∀ t, f.relTo = some t →
        t.id ∈ amsIds (ams ++ Δ)) := by
  obtain ⟨Δ, d2, hfold, hS, hnd, htgt⟩ :=
    foldFields_total env u S hC (am.2.fields ++ am.2.many_to_many) ams [] hres
  refine ⟨Δ, d2, ?_, hS, hnd, htgt⟩
  unfold build_fixture
  rw [hfold]
  rfl

lemma nodup_subset_length {l l2 : List String} (h : l.Nodup)
    (hs : ∀ x ∈ l, x ∈ l2) : l.length ≤ l2.length := by
  calc l.length = l.toFinset.card := (List.toFinset_card_of_nodup h).symm
  _ ≤ l2.toFinset.card := Finset.card_le_card (fun x hx =>
      List.mem_toFinset.mpr (hs x (List.mem_toFinset.mp hx)))
  _ ≤ l2.length := l2.toFinset_card_le

lemma initial_mem_S (env : Env) (S : List Model) (hC : envClosed env S)
    (args : List String) : ∀ e ∈ get_app_models env args, e.2 ∈ S := by
  intro e he
  obtain ⟨a, n, hg⟩ := mem_get_app_models env args e he
  exact hC a n e.2 hg

lemma run_loop_ok (env : Env) (u : Bool) (S : List Model)
    (hC : envClosed env S) (hE : envExact env S) :
    ∀ (fuel i : Nat) (ams : List (String × Model)) (fxs : List Record),
    (∀ e ∈ ams, e.2 ∈ S) → i ≤ ams.length →
    fxs.map Record.model = (ams.take i).map entryName →
    (∀ e ∈ ams.take i, ∀ f ∈ e.2.fields ++ e.2.many_to_many,
      f.primary_key = false → (u || !f.blank) = true →
      ∀ t, f.relTo = some t → t.id ∈ amsIds ams) →
    ∀ amsF out, run_loop env u fuel i ams fxs = Except.ok (amsF, out) →
      (∀ e ∈ amsF, e.2 ∈ S) ∧
      out.map Record.model = amsF.map entryName ∧
      (∀ e ∈ amsF, ∀ f ∈ e.2.fields ++ e.2.many_to_many,
        f.primary_key = false → (u || !f.blank) = true →
        ∀ t, f.relTo = some t → t.id ∈ amsIds amsF) := by
  intro fuel
  induction fuel with
  | zero =>
    intro i ams fxs _ _ _ _ amsF out hok
    rw [run_loop_zero] at hok
    exact absurd hok (by simp)
  | succ n ih =>
    intro i ams fxs hS hi hmap htgt amsF out hok
    rw [run_loop_succ] at hok
    by_cases hlt : i < ams.length
    · rw [dif_pos hlt] at hok
      have hmem : ams[i] ∈ ams := List.getElem_mem hlt
      have hresI : ∀ f ∈ (ams[i]).2.fields ++ (ams[i]).2.many_to_many,
          ∀ t, f.relTo = some t → resolvesTo env t :=
        hE (ams[i]).2 (hS _ hmem)
      obtain ⟨Δ, d, hbf, hΔS, hΔnd, hΔtgt⟩ :=
        build_fixture_total env u S hC ams fxs (ams[i]) hresI
      rw [hbf] at hok
      have hok2 : run_loop env u n (i + 1) (ams ++ Δ)
          (fxs ++ [⟨get_default_pk (ams[i]).2, entryName ams[i], d⟩]) =
          Except.ok (amsF, out) := hok
      have htake : (ams ++ Δ).take (i + 1) = ams.take (i + 1) := by
        rw [List.take_append_eq_append_take]
        have hz : i + 1 - ams.length = 0 := by omega
        rw [hz]
        simp
      have htakesucc : ams.take (i + 1) = ams.take i ++ [ams[i]] := by
        rw [List.take_succ, List.getElem?_eq_getElem hlt]
        rfl
      have hS2 : ∀ e ∈ ams ++ Δ, e.2 ∈ S := by
        intro e he
        rcases List.mem_append.mp he with h | h
        · exact hS e h
        · exact hΔS e h
      have hi2 : i + 1 ≤ (ams ++ Δ).length := by
        rw [List.length_append]
        omega
      have hmap2 : (fxs ++ [(⟨get_default_pk (ams[i]).2, entryName ams[i], d⟩ : Record)]).map
          Record.model = ((ams ++ Δ).take (i + 1)).map entryName := by
        rw [htake, htakesucc, List.map_append, List.map_append, hmap]
        rfl
      have htgt2 : ∀ e ∈ (ams ++ Δ).take (i + 1),
          ∀ f ∈ e.2.fields ++ e.2.many_to_many,
          f.primary_key = false → (u || !f.blank) = true →
          ∀ t, f.relTo = some t → t.id ∈ amsIds (ams ++ Δ) := by
        intro e he f hf hfpk hfq t ht
        rw [htake, htakesucc] at he
        rcases List.mem_append.mp he with h | h
        · have := htgt e h f hf hfpk hfq t ht
          rw [amsIds_append]
          exact List.mem_append_left _ this
        · have he2 : e = ams[i] := by simpa using h
          rw [he2] at hf
          exact hΔtgt f hf hfpk hfq t ht
      exact ih (i + 1) (ams ++ Δ) _ hS2 hi2 hmap2 htgt2 amsF out hok2
    · rw [dif_neg hlt] at hok
      injection hok with h
      injection h with hA hB
      subst hA
      subst hB
      have hieq : i = ams.length := Nat.le_antisymm hi (Nat.le_of_not_lt hlt)
      rw [hieq, List.take_length] at hmap htgt
      exact ⟨hS, hmap, htgt⟩

lemma run_loop_nodup (env : Env) (u : Bool) (S : List Model)
    (hC : envClosed env S) (hE : envExact env S) :
    ∀ (fuel i : Nat) (ams : List (String × Model)) (fxs : List Record),
    (∀ e ∈ ams, e.2 ∈ S) → (amsIds ams).Nodup →
    ∀ amsF out, run_loop env u fuel i ams fxs = Except.ok (amsF, out) →
      (amsIds amsF).Nodup := by
  intro fuel
  induction fuel with
  | zero =>
    intro i ams fxs _ _ amsF out hok
    rw [run_loop_zero] at hok
    exact absurd hok (by simp)
  | succ n ih =>
    intro i ams fxs hS hnd amsF out hok
    rw [run_loop_succ] at hok
    by_cases hlt : i < ams.length
    · rw [dif_pos hlt] at hok
      have hmem : ams[i] ∈ ams := List.getElem_mem hlt
      have hresI : ∀ f ∈ (ams[i]).2.fields ++ (ams[i]).2.many_to_many,
          ∀ t, f.relTo = some t → resolvesTo env t :=
        hE (ams[i]).2 (hS _ hmem)
      obtain ⟨Δ, d, hbf, hΔS, hΔnd, hΔtgt⟩ :=
        build_fixture_total env u S hC ams fxs (ams[i]) hresI
      rw [hbf] at hok
      have hok2 : run_loop env u n (i + 1) (ams ++ Δ)
          (fxs ++ [⟨get_default_pk (ams[i]).2, entryName ams[i], d⟩]) =
          Except.ok (amsF, out) := hok
      have hS2 : ∀ e ∈ ams ++ Δ, e.2 ∈ S := by
        intro e he
        rcases List.mem_append.mp he with h | h
        · exact hS e h
        · exact hΔS e h
      exact ih (i + 1) (ams ++ Δ) _ hS2 (hΔnd hnd) amsF out hok2
    · rw [dif_neg hlt] at hok
      injection hok with h
      injection h with hA hB
      subst hA
      exact hnd

lemma run_loop_total (env : Env) (u : Bool) (S : List Model)
    (hC : envClosed env S) (hE : envExact env S) :
    ∀ (fuel i : Nat) (ams : List (String × Model)) (fxs : List Record),
    (∀ e ∈ ams, e.2 ∈ S) → (amsIds ams).Nodup → i ≤ ams.length →
    S.length + 1 - i ≤ fuel →
    ∃ r, run_loop env u fuel i ams fxs = Except.ok r := by
  intro fuel
  induction fuel with
  | zero =>
    intro i ams fxs hS hnd hi hfuel
    have hb : ams.length ≤ S.length := by
      have h2 : ∀ x ∈ amsIds ams, x ∈ S.map Model.id := by
        intro x hx
        rw [mem_amsIds] at hx
        obtain ⟨e, he, hid⟩ := hx
        exact hid ▸ List.mem_map_of_mem Model.id (hS e he)
      have h3 := nodup_subset_length hnd h2
      simpa [amsIds] using h3
    omega
  | succ n ih =>
    intro i ams fxs hS hnd hi hfuel
    by_cases hlt : i < ams.length
    · have hmem : ams[i] ∈ ams := List.getElem_mem hlt
      have hresI : ∀ f ∈ (ams[i]).2.fields ++ (ams[i]).2.many_to_many,
          ∀ t, f.relTo = some t → resolvesTo env t :=
        hE (ams[i]).2 (hS _ hmem)
      obtain ⟨Δ, d, hbf, hΔS, hΔnd, hΔtgt⟩ :=
        build_fixture_total env u S hC ams fxs (ams[i]) hresI
      have hS2 : ∀ e ∈ ams ++ Δ, e.2 ∈ S := by
        intro e he
        rcases List.mem_append.mp he with h | h
        · exact hS e h
        · exact hΔS e h
      have hi2 : i + 1 ≤ (ams ++ Δ).length := by
        rw [List.length_append]
        omega
      obtain ⟨r, hr⟩ := ih (i + 1) (ams ++ Δ)
        (fxs ++ [⟨get_default_pk (ams[i]).2, entryName ams[i], d⟩])
        hS2 (hΔnd hnd) hi2 (by omega)
      refine ⟨r, ?_⟩
      rw [run_loop_succ, dif_pos hlt, hbf]
      exact hr
    · refine ⟨(ams, fxs), ?_⟩
      rw [run_loop_succ, dif_neg hlt]

lemma wEnv_closed : envClosed wEnv wS := by
  intro a n m h
  have h2 : wGetModel a n = some m := h
  unfold wGetModel at h2
  split at h2
  · have hm : mAw = m := by simpa using h2
    rw [← hm]
    exact List.mem_cons_self _ _
  · split at h2
    · have hm : mB = m := by simpa using h2
      rw [← hm]
      simp [wS]
    · exact absurd h2 (by simp)

lemma wEnv_exact : envExact wEnv wS := by
  intro m hm f hf t ht
  have hm2 : m = mAw ∨ m = mB := by simpa [wS] using hm
  rcases hm2 with rfl | rfl
  · have hf2 : f = fkB := by simpa [mAw] using hf
    rw [hf2] at ht
    have ht2 : some (⟨"B", "B"⟩ : RelTarget) = some t := ht
    have ht3 : (⟨"B", "B"⟩ : RelTarget) = t := by injection ht2
    rw [← ht3]
    exact ⟨("app", mB), rfl, rfl⟩
  · simp [mB] at hf

/-- C4 (amended): with duplicate-free initial identities and exact
name resolution, every successful run keeps the scheduled identities
duplicate-free and emits exactly one record per scheduled entry (in
order), so no model is visited twice. -/
theorem C4_thm (env : Env) (u : Bool) (args model_names : List String)
    (fuel : Nat) (S : List Model) (hC : envClosed env S) (hE : envExact env S)
    (hnd0 : (amsIds (get_app_models env args)).Nodup)
    (amsF : List (String × Model)) (out : List Record)
    (hok : build_fixtures env u args model_names fuel = Except.ok (amsF, out)) :
    (amsIds amsF).Nodup ∧ out.map Record.model = amsF.map entryName := by
  unfold build_fixtures at hok
  constructor
  · exact run_loop_nodup env u S hC hE fuel 0 (get_app_models env args) []
      (initial_mem_S env S hC args) hnd0 amsF out hok
  · exact (run_loop_ok env u S hC hE fuel 0 (get_app_models env args) []
      (initial_mem_S env S hC args) (Nat.zero_le _) (by simp) (by simp)
      amsF out hok).2.1

/-- C4 (witness): the well-behaved environment `wEnv` run on `["AW"]`. -/
theorem C4_w :
    (amsIds [("app", mAw), ("app", mB)]).Nodup ∧
    [wRecA, wRecB].map Record.model =
      [("app", mAw), ("app", mB)].map entryName :=
  C4_thm wEnv false ["AW"] [] 3 wS wEnv_closed wEnv_exact (by decide)
    [("app", mAw), ("app", mB)] [wRecA, wRecB] rfl

/-- C5 (amended): on every successful run (which under exact name
resolution always schedules the first lookup result, the referenced
model itself), the identity of every qualifying foreign-key target of
every scheduled model ends up in the scheduled list, and a record with
the fully-qualified name of every scheduled entry is emitted. -/
theorem C5_thm (env : Env) (u : Bool) (args model_names : List String)
    (fuel : Nat) (S : List Model) (hC : envClosed env S) (hE : envExact env S)
    (amsF : List (String × Model)) (out : List Record)
    (hok : build_fixtures env u args model_names fuel = Except.ok (amsF, out)) :
    (∀ e ∈ amsF, ∀ f ∈ e.2.fields ++ e.2.many_to_many,
      f.primary_key = false → (u || !f.blank) = true →
      ∀ t, f.relTo = some t → t.id ∈ amsIds amsF) ∧
    (∀ e ∈ amsF, entryName e ∈ out.map Record.model) := by
  unfold build_fixtures at hok
  have h := run_loop_ok env u S hC hE fuel 0 (get_app_models env args) []
    (initial_mem_S env S hC args) (Nat.zero_le _) (by simp) (by simp)
    amsF out hok
  refine ⟨h.2.2, ?_⟩
  intro e he
  rw [h.2.1]
  exact List.mem_map_of_mem entryName he

/-- C5 (witness): in `wEnv`, the target `mB` of `mAw`'s foreign key is
scheduled and a record is emitted for every scheduled entry. -/
theorem C5_w :
    (∀ e ∈ [("app", mAw), ("app", mB)], ∀ f ∈ e.2.fields ++ e.2.many_to_many,
      f.primary_key = false → (false || !f.blank) = true →
      ∀ t, f.relTo = some t → t.id ∈ amsIds [("app", mAw), ("app", mB)]) ∧
    (∀ e ∈ [("app", mAw), ("app", mB)],
      entryName e ∈ [wRecA, wRecB].map Record.model) :=
  C5_thm wEnv false ["AW"] [] 3 wS wEnv_closed wEnv_exact
    [("app", mAw), ("app", mB)] [wRecA, wRecB] rfl

/-- C7 (amended): with duplicate-free initial identities and exact name
resolution over the finite universe `S`, the traversal terminates:
`|S| + 1` loop iterations suffice for a successful run. -/
theorem C7_thm (env : Env) (u : Bool) (args model_names : List String)
    (S : List Model) (hC : envClosed env S) (hE : envExact env S)
    (hnd0 : (amsIds (get_app_models env args)).Nodup) :
    ∃ r, build_fixtures env u args model_names (S.length + 1) = Except.ok r := by
  unfold build_fixtures
  exact run_loop_total env u S hC hE (S.length + 1) 0 (get_app_models env args)
    [] (initial_mem_S env S hC args) hnd0 (Nat.zero_le _) (by omega)

/-- C7 (witness): `wEnv` terminates within `|wS| + 1 = 3` iterations. -/
theorem C7_w :
    ∃ r, build_fixtures wEnv false ["AW"] [] (wS.length + 1) = Except.ok r :=
  C7_thm wEnv false ["AW"] [] wS wEnv_closed wEnv_exact (by decide)

lemma cex7_no_t2 (ams : List (String × Model))
    (hno : ∀ e ∈ ams, e.2 = mA7 ∨ e.2 = mT1c) :
    ams.any (fun e => e.2.id == tgtT2.id) = false := by
  rw [List.any_eq_false]
  intro e he
  rcases hno e he with h | h <;> rw [h] <;> decide

lemma cex7_step (ams : List (String × Model)) (fxs : List Record)
    (am : String × Model) (hm : am.2 = mA7 ∨ am.2 = mT1c)
    (hno : ∀ e ∈ ams, e.2 = mA7 ∨ e.2 = mT1c) :
    build_fixture cex7Env false ams fxs am =
      some (ams ++ [("app1", mT1c)],
        fxs ++ [⟨PyVal.pyNone, entryName am, [("t", PyVal.pyInt 1)]⟩]) := by
  have hany : ams.any (fun e => e.2.id == tgtT2.id) = false := cex7_no_t2 ams hno
  have hfields : am.2.fields ++ am.2.many_to_many = [fkT] := by
    rcases hm with h | h <;> rw [h] <;> rfl
  have hpkv : get_default_pk am.2 = PyVal.pyNone := by
    rcases hm with h | h <;> rw [h] <;> rfl
  have hstep : processField cex7Env false ams [] fkT =
      some (ams ++ [("app1", mT1c)], [("t", PyVal.pyInt 1)]) := by
    rw [processField_rel_add cex7Env false ams [] fkT tgtT2 ("app1", mT1c)
      rfl rfl hany rfl rfl]
    rfl
  unfold build_fixture
  rw [hfields, List.foldlM_cons]
  have hstep2 : processField cex7Env false (ams, ([] : List (String × PyVal))).1
      (ams, ([] : List (String × PyVal))).2 fkT =
      some (ams ++ [("app1", mT1c)], [("t", PyVal.pyInt 1)]) := hstep
  rw [hstep2, hpkv]
  rfl

lemma cex7_loop :
    ∀ (fuel i : Nat) (ams : List (String × Model)) (fxs : List Record),
    i < ams.length → (∀ e ∈ ams, e.2 = mA7 ∨ e.2 = mT1c) →
    run_loop cex7Env false fuel i ams fxs = Except.error RunErr.outOfFuel := by
  intro fuel
  induction fuel with
  | zero =>
    intro i ams fxs _ _
    rw [run_loop_zero]
  | succ n ih =>
    intro i ams fxs hi hno
    rw [run_loop_succ, dif_pos hi]
    have hmem : ams[i] ∈ ams := List.getElem_mem hi
    rw [cex7_step ams fxs (ams[i]) (hno _ hmem) hno]
    have hno2 : ∀ e ∈ ams ++ [("app1", mT1c)], e.2 = mA7 ∨ e.2 = mT1c := by
      intro e he
      rcases List.mem_append.mp he with h | h
      · exact hno e h
      · have he2 : e = ("app1", mT1c) := by simpa using h
        rw [he2]
        exact Or.inr rfl
    have hlen : i + 1 < (ams ++ [("app1", mT1c)]).length := by
      rw [List.length_append]
      simp
      omega
    exact ih (i + 1) (ams ++ [("app1", mT1c)]) _ hlen hno2

/-- C7 (counterexample): on `cex7Env` (where `app1.Tag` shadows the
referenced `app2.Tag` and itself references it) the traversal never
terminates: every fuel bound is exhausted, refuting termination for
arbitrary finite model sets — the scheduled list does not grow only by
models not already present. -/
theorem C7_cex : divergesFrom cex7Env false ["A"] := by
  intro fuel
  unfold build_fixtures
  apply cex7_loop fuel 0
  · show 0 < (get_app_models cex7Env ["A"]).length
    decide
  · intro e he
    have hg : get_app_models cex7Env ["A"] = [("app1", mA7)] := rfl
    rw [hg] at he
    have he2 : e = ("app1", mA7) := by simpa using he
    rw [he2]
    exact Or.inl rfl
